import Mathlib

/-!
Verification development for the bitbucket-stupid-mcp adapter.

The repository contains two implementation variants of the same MCP server:
a fixed-base-URL variant (src/server.ts, embedded below with the prefix v1)
and an environment-configured variant using a catching registration wrapper
registerApiTool (embedded below without a prefix, the listPrsLogic family).

The embedding models the upstream REST host as an oracle from requests to
transport outcomes, typed per endpoint family exactly as the design notes of
the repository describe the upstream payloads (explicit partial/optional
structural types per endpoint).  JavaScript absent/undefined/null values are
modelled with Option; a plain property read on a nullish value raises a
TypeError, which the embedding represents with Except.error carrying the
error message.  Process-wide configuration (base URL) is passed explicitly.
The Authorization header is a process constant in the source and is not
observable by any verified property, so requests record only the URL, the
Accept text/plain override and the text response-format hint.
-/

namespace BitbucketMcp

/-- An outbound HTTP GET request as issued by the axios calls of both
variants: the full URL (base URL already concatenated with the path, exactly
as the source interpolates it, with no encoding), whether the caller
overrides the Accept header with text/plain, and whether the text response
format was requested instead of json. -/
structure Req where
  url : String
  acceptTextPlain : Bool
  textResponse : Bool
deriving DecidableEq, Repr

/-- A call-trace entry: which endpoint-family oracle was consulted, for the
inbox endpoint also the role string the call site supplied, and the concrete
request. -/
inductive ApiCall where
  | whoami (r : Req)
  | userSearch (r : Req)
  | inbox (role : String) (r : Req)
  | prDetail (r : Req)
  | prDiff (r : Req)
deriving DecidableEq, Repr

/-- Outcome of one upstream HTTP exchange, as seen by the axios try/catch in
bitbucketGet / bitbucketApiRequest: a 2xx response with a parsed body, a
non-2xx response (axios throws; error.response carries status and body), or
a transport failure with only an error message and no response object. -/
inductive Transport (β : Type) where
  | ok (body : β)
  | httpErr (status : Int) (body : String)
  | netErr (msg : String)

/-- The tagged Result both variants return from the HTTP wrapper:
interface \x7b data: T \x7d versus \x7b error: \x7b status?, message \x7d \x7d. -/
inductive BBResp (β : Type) where
  | data (body : β)
  | err (status : Option Int) (message : String)
deriving Repr

/-- The message axios synthesizes for a non-2xx response, used by the
wrapper when the response body is falsy (error.response?.data || error.message). -/
def httpFallback (st : Int) : String :=
  "Request failed with status code " ++ toString st

/-- Embedding of bitbucketGet (and of the identical bitbucketApiRequest of
the fixed-base variant): perform the GET against the oracle and capture
every failure into the Result, never raising.  On failure the message is
error.response?.data when that is truthy, otherwise error.message. -/
def bitbucketGet {β : Type} (oracle : Req → Transport β) (r : Req) : BBResp β :=
  match oracle r with
  | .ok b => .data b
  | .httpErr st body => .err (some st) (if body = "" then httpFallback st else body)
  | .netErr m => .err none m

/-- Embedding of getOrThrow: unwrap the data variant, or throw a new
Error carrying the Result error message. -/
def getOrThrow {β : Type} (r : BBResp β) : Except String β :=
  match r with
  | .data b => .ok b
  | .err _ m => .error m

/-- Upstream user object inside author/reviewer participants: only
displayName is read, through optional chaining. -/
structure BbUser where
  displayName : Option String
deriving DecidableEq, Repr

/-- Upstream participant (author entry or one reviewers element); the
nested user object may be absent. -/
structure Participant where
  user : Option BbUser
deriving DecidableEq, Repr

/-- Upstream project object nested in a repository; key may be absent. -/
structure PrProject where
  key : Option String
deriving DecidableEq, Repr

/-- Upstream repository object; the handlers read project, slug and
full_name from it. -/
structure PrRepo where
  project : Option PrProject
  slug : Option String
  full_name : Option String
deriving DecidableEq, Repr

/-- Upstream destination ref; only its repository is read. -/
structure PrDest where
  repository : Option PrRepo
deriving DecidableEq, Repr

/-- Upstream fromRef; read WITHOUT optional chaining by both variants. -/
structure PrFromRef where
  repository : Option PrRepo
deriving DecidableEq, Repr

/-- One upstream pull-request item of an inbox query, restricted to the
fields the projection reads.  Every field may be absent. -/
structure UpstreamPr where
  id : Option Int
  title : Option String
  author : Option Participant
  reviewers : Option (List Participant)
  state : Option String
  destination : Option PrDest
  fromRef : Option PrFromRef
deriving DecidableEq, Repr

/-- One record of the user-search endpoint; the handlers read name, slug
and displayName (the TypeScript annotation of the fixed-base variant). -/
structure UserRec where
  name : Option String
  slug : Option String
  displayName : Option String
deriving DecidableEq, Repr

/-- Body of the user-search endpoint: \x7b values: [...] \x7d where the
values field may be absent. -/
structure UsersBody where
  values : Option (List UserRec)
deriving DecidableEq, Repr

/-- Body of the inbox pull-requests endpoint. -/
structure PrsBody where
  values : Option (List UpstreamPr)
deriving DecidableEq, Repr

/-- Body of the single pull-request detail endpoint, restricted to the
fields the get-info projection reads.  The two date fields are epoch
milliseconds when present; an absent field makes new Date produce an
invalid date. -/
structure PrDetail where
  id : Option Int
  title : Option String
  description : Option String
  author : Option Participant
  reviewers : Option (List Participant)
  state : Option String
  createdDate : Option Int
  updatedDate : Option Int
deriving DecidableEq, Repr

/-- The upstream host, typed per endpoint family; every oracle still
receives the full request (so responses may depend on the verbatim URL). -/
structure Env where
  whoami : Req → Transport String
  users : Req → Transport UsersBody
  inbox : Req → Transport PrsBody
  detail : Req → Transport PrDetail
  diff : Req → Transport String

/-- JavaScript truthiness of a possibly-absent string: absent, and the
empty string, are falsy. -/
def truthyStr : Option String → Bool
  | none => false
  | some s => s != ""

/-- Message of the TypeError raised by reading a property of undefined. -/
def typeErrorRead (k : String) : String :=
  "TypeError: Cannot read properties of undefined (reading " ++ k ++ ")"

/-- The list-operation projection of one pull request, with exactly the
fields both variants build; absent upstream data propagates as none. -/
structure PrListItem where
  id : Option Int
  title : Option String
  author : Option String
  reviewers : Option (List (Option String))
  state : Option String
  repository : Option String
  projectKey : Option String
  repositorySlug : Option String
deriving DecidableEq, Repr

/-- The get-info projection, with the two dates already rendered to
ISO-8601 strings. -/
structure PrInfo where
  id : Option Int
  title : Option String
  description : Option String
  author : Option String
  reviewers : Option (List (Option String))
  state : Option String
  created_on : String
  updated_on : String
deriving DecidableEq, Repr

/-- Embedding of the per-item projection shared verbatim by both variants:
author, reviewers and destination are read through optional chaining, but
pr.fromRef.repository.project.key and pr.fromRef.repository.slug are plain
reads, so a missing fromRef, repository or project raises a TypeError
(represented as Except.error).  The object literal evaluates projectKey
before repositorySlug, so the first missing link of the fromRef chain
determines the error. -/
def projectPr (pr : UpstreamPr) : Except String PrListItem :=
  match pr.fromRef with
  | none => .error (typeErrorRead "repository")
  | some fr =>
    match fr.repository with
    | none => .error (typeErrorRead "project")
    | some repo =>
      match repo.project with
      | none => .error (typeErrorRead "key")
      | some proj =>
        .ok { id := pr.id
              title := pr.title
              author := (pr.author.bind Participant.user).bind BbUser.displayName
              reviewers := pr.reviewers.map
                (fun l => l.map (fun rv => rv.user.bind BbUser.displayName))
              state := pr.state
              repository := (pr.destination.bind PrDest.repository).bind PrRepo.full_name
              projectKey := proj.key
              repositorySlug := repo.slug }

/-- JavaScript Array.prototype.findIndex, generalized over the running
index; the call sites compare its result against the current filter index,
so the not-found value (-1 in JavaScript) is modelled as none, which never
equals some i. -/
def jsFindIndex {α : Type} (p : α → Bool) : Nat → List α → Option Nat
  | _, [] => none
  | i, x :: xs => if p x then some i else jsFindIndex p (i + 1) xs

/-- JavaScript Array.prototype.filter with the element index made
explicit. -/
def filterIdx {α : Type} (f : Nat → α → Bool) : Nat → List α → List α
  | _, [] => []
  | i, x :: xs => if f i x then x :: filterIdx f (i + 1) xs else filterIdx f (i + 1) xs

/-- Embedding of the deduplication both variants apply to the accumulated
inbox items: keep an element exactly when the first index whose id compares
strictly equal to its id is its own index. -/
def dedupeById (prs : List UpstreamPr) : List UpstreamPr :=
  filterIdx (fun i pr => jsFindIndex (fun p => p.id == pr.id) 0 prs == some i) 0 prs

/-- Left-pad a natural number with zeros to the given width. -/
def pad (w : Nat) (n : Nat) : String :=
  let s := toString n
  String.mk (List.replicate (w - s.length) '0') ++ s

/-- Proleptic Gregorian civil date (year, month, day) of a day count
relative to 1970-01-01, the conversion Date.prototype.toISOString performs
in UTC. -/
def civilFromDays (z0 : Int) : Int × Int × Int :=
  let z := z0 + 719468
  let era := z.fdiv 146097
  let doe := z - era * 146097
  let yoe := (doe - doe / 1460 + doe / 36524 - doe / 146096) / 365
  let y := yoe + era * 400
  let doy := doe - (365 * yoe + yoe / 4 - yoe / 100)
  let mp := (5 * doy + 2) / 153
  let d := doy - (153 * mp + 2) / 5 + 1
  let m := mp + (if mp < 10 then 3 else -9)
  (y + (if m ≤ 2 then 1 else 0), m, d)

/-- Year formatting of toISOString: four digits inside 0..9999, otherwise
the sign-prefixed six-digit expanded form. -/
def renderYear (y : Int) : String :=
  if 0 ≤ y ∧ y ≤ 9999 then pad 4 y.toNat
  else if y < 0 then "-" ++ pad 6 (-y).toNat
  else "+" ++ pad 6 y.toNat

/-- Rendering of an epoch-milliseconds value by Date.prototype.toISOString
(UTC, milliseconds precision, trailing Z). -/
def renderIso (ms : Int) : String :=
  let days := ms.fdiv 86400000
  let msod := (ms - days * 86400000).toNat
  let c := civilFromDays days
  renderYear c.1 ++ "-" ++ pad 2 c.2.1.toNat ++ "-" ++ pad 2 c.2.2.toNat ++ "T" ++
    pad 2 (msod / 3600000) ++ ":" ++ pad 2 (msod % 3600000 / 60000) ++ ":" ++
    pad 2 (msod % 60000 / 1000) ++ "." ++ pad 3 (msod % 1000) ++ "Z"

/-- Embedding of new Date(d).toISOString() on the date fields: an absent
field gives an invalid date, and a value outside the representable range
of a Date is invalid as well; toISOString on an invalid date throws a
RangeError with message Invalid time value.  Otherwise the ISO-8601 UTC
rendering is produced. -/
def toIsoString (d : Option Int) : Except String String :=
  match d with
  | none => .error "Invalid time value"
  | some ms =>
    if ms.natAbs > 8640000000000000 then .error "Invalid time value"
    else .ok (renderIso ms)

/-- Values the handlers hand to the formatting helpers: a plain string, a
list of list-projection items, or one get-info projection. -/
inductive ToolValue where
  | str (s : String)
  | items (ps : List PrListItem)
  | info (i : PrInfo)
deriving DecidableEq, Repr

/-- One content block of the MCP response envelope; the repository only
ever produces text blocks. -/
inductive ContentBlock where
  | text (s : String)
deriving DecidableEq, Repr

/-- The MCP response envelope: a content array. -/
structure ToolOutput where
  content : List ContentBlock
deriving DecidableEq, Repr

/-- Minimal JSON string escaping (backslash and double quote), sufficient
for the payload space modelled here. -/
def escapeJson (s : String) : String :=
  s.foldl (fun acc c =>
    if c = '\\' then acc ++ "\\\\"
    else if c = '"' then acc ++ "\\\"" else acc.push c) ""

/-- A JSON string literal. -/
def jstr (s : String) : String := "\"" ++ escapeJson s ++ "\""

/-- One optional string field of a serialized object; JSON.stringify omits
fields whose value is undefined. -/
def optField (name : String) (v : Option String) : List String :=
  match v with
  | none => []
  | some s => [jstr name ++ ":" ++ jstr s]

/-- Serialized fields of one list-projection item, in the insertion order
of the source object literal. -/
def itemFields (it : PrListItem) : List String :=
  (match it.id with | none => [] | some n => [jstr "id" ++ ":" ++ toString n]) ++
  optField "title" it.title ++
  optField "author" it.author ++
  (match it.reviewers with
   | none => []
   | some l => [jstr "reviewers" ++ ":[" ++
      String.intercalate ","
        (l.map (fun o => match o with | none => "null" | some s => jstr s)) ++ "]"]) ++
  optField "state" it.state ++
  optField "repository" it.repository ++
  optField "projectKey" it.projectKey ++
  optField "repositorySlug" it.repositorySlug

/-- Serialization of the list-projection array, modelling JSON.stringify
on the handler result (the pretty-printing whitespace of
JSON.stringify(data, null, 2) is not reproduced; no verified property
depends on it). -/
def stringifyItems (ps : List PrListItem) : String :=
  "[" ++ String.intercalate ","
    (ps.map (fun it => "\x7b" ++ String.intercalate "," (itemFields it) ++ "\x7d")) ++ "]"

/-- Serialized fields of the get-info projection, in source order. -/
def infoFields (i : PrInfo) : List String :=
  (match i.id with | none => [] | some n => [jstr "id" ++ ":" ++ toString n]) ++
  optField "title" i.title ++
  optField "description" i.description ++
  optField "author" i.author ++
  (match i.reviewers with
   | none => []
   | some l => [jstr "reviewers" ++ ":[" ++
      String.intercalate ","
        (l.map (fun o => match o with | none => "null" | some s => jstr s)) ++ "]"]) ++
  optField "state" i.state ++
  [jstr "created_on" ++ ":" ++ jstr i.created_on] ++
  [jstr "updated_on" ++ ":" ++ jstr i.updated_on]

/-- Serialization of the get-info projection, modelling JSON.stringify as
above. -/
def stringifyInfo (i : PrInfo) : String :=
  "\x7b" ++ String.intercalate "," (infoFields i) ++ "\x7d"

/-- Embedding of format of the registerApiTool variant: strings pass
through untouched, structured data is serialized; the result is always a
single-text-block envelope. -/
def format (v : ToolValue) : ToolOutput :=
  match v with
  | .str s => { content := [ContentBlock.text s] }
  | .items ps => { content := [ContentBlock.text (stringifyItems ps)] }
  | .info i => { content := [ContentBlock.text (stringifyInfo i)] }

/-- Rendering of a caught exception by the wrapper, e.message || e: the
message when truthy, otherwise the string conversion of a message-less
Error object. -/
def renderErr (m : String) : String := if m = "" then "Error" else m

/-- The role argument after schema validation (optional, default all). -/
inductive RoleArg where
  | author
  | reviewer
  | all
deriving DecidableEq, Repr

/-- The effective role set: AUTHOR and REVIEWER for all, otherwise the
single selected role uppercased. -/
def roleStrings : RoleArg → List String
  | .all => ["AUTHOR", "REVIEWER"]
  | .author => ["AUTHOR"]
  | .reviewer => ["REVIEWER"]

/-- A json-format request (no header override, default response type). -/
def jsonReq (url : String) : Req := ⟨url, false, false⟩

/-- The text-format request the diff tool issues (Accept: text/plain and
responseType text). -/
def textReq (url : String) : Req := ⟨url, true, true⟩

/-- URL of the identity lookup, by verbatim concatenation. -/
def whoamiUrl (base : String) : String :=
  base ++ "/plugins/servlet/applinks/whoami"

/-- URL of the user search, with the username interpolated verbatim. -/
def usersUrl (base u : String) : String :=
  base ++ "/rest/api/latest/users?filter=" ++ u

/-- URL of one inbox query for a role string. -/
def inboxUrl (base r : String) : String :=
  base ++ "/rest/api/latest/inbox/pull-requests?state=OPEN&role=" ++ r

/-- URL of the pull-request detail endpoint, with project key, repository
slug and id interpolated verbatim. -/
def prUrl (base pk rs : String) (prId : Int) : String :=
  base ++ "/rest/api/latest/projects/" ++ pk ++ "/repos/" ++ rs ++
    "/pull-requests/" ++ toString prId

/-- Message of the TypeError raised by spreading an undefined values
field (push(...prs.values) in the registerApiTool variant). -/
def spreadUndefinedMsg : String := "TypeError: prs.values is not iterable"

/-- The per-role inbox loop of the registerApiTool variant: one awaited
GET per role, getOrThrow on each result (so the first failure throws and
ends the loop), and accumulation of the returned values arrays. -/
def fetchRoles (base : String) (env : Env) :
    List String → List UpstreamPr → List ApiCall →
    Except String (List UpstreamPr) × List ApiCall
  | [], acc, t => (.ok acc, t)
  | r :: rest, acc, t =>
    let req := jsonReq (inboxUrl base r)
    let t2 := t ++ [ApiCall.inbox r req]
    match getOrThrow (bitbucketGet env.inbox req) with
    | .error m => (.error m, t2)
    | .ok b =>
      match b.values with
      | none => (.error spreadUndefinedMsg, t2)
      | some vs => fetchRoles base env rest (acc ++ vs) t2

/-- Embedding of the bitbucketlistprs logic of the registerApiTool
variant: whoami, user search on the resolved name, slug check (throwing on
failure), the per-role inbox loop, deduplication by id, and the per-item
projection.  The first component is the value the logic returns or the
message of the exception it throws; the second is the trace of upstream
calls issued. -/
def listPrsLogic (base : String) (env : Env) (role : RoleArg) :
    Except String (List PrListItem) × List ApiCall :=
  let whoReq := jsonReq (whoamiUrl base)
  let t := [ApiCall.whoami whoReq]
  match getOrThrow (bitbucketGet env.whoami whoReq) with
  | .error m => (.error m, t)
  | .ok username =>
    let uReq := jsonReq (usersUrl base username)
    let t := t ++ [ApiCall.userSearch uReq]
    match getOrThrow (bitbucketGet env.users uReq) with
    | .error m => (.error m, t)
    | .ok userResp =>
      match userResp.values with
      | none => (.error (typeErrorRead "0"), t)
      | some vs =>
        let user := vs.head?
        if !truthyStr (user.bind UserRec.slug) then
          (.error "Failed to resolve current user slug", t)
        else
          match fetchRoles base env (roleStrings role) [] t with
          | (.error m, t) => (.error m, t)
          | (.ok allPrs, t) =>
            match (dedupeById allPrs).mapM projectPr with
            | .error m => (.error m, t)
            | .ok out => (.ok out, t)

/-- Embedding of the bitbucketgetpr logic of the registerApiTool variant:
one GET, getOrThrow, then the get-info projection with the two dates
converted in object-literal order (created_on before updated_on). -/
def getPrLogic (base : String) (env : Env) (projectKey repositorySlug : String)
    (prId : Int) : Except String PrInfo × List ApiCall :=
  let req := jsonReq (prUrl base projectKey repositorySlug prId)
  let t := [ApiCall.prDetail req]
  match getOrThrow (bitbucketGet env.detail req) with
  | .error m => (.error m, t)
  | .ok d =>
    match toIsoString d.createdDate with
    | .error m => (.error m, t)
    | .ok created =>
      match toIsoString d.updatedDate with
      | .error m => (.error m, t)
      | .ok updated =>
        (.ok { id := d.id
               title := d.title
               description := d.description
               author := (d.author.bind Participant.user).bind BbUser.displayName
               reviewers := d.reviewers.map
                 (fun l => l.map (fun rv => rv.user.bind BbUser.displayName))
               state := d.state
               created_on := created
               updated_on := updated }, t)

/-- Embedding of the bitbucketgetdiff logic of the registerApiTool
variant: one text-format GET with the .diff suffix, getOrThrow on the
result (the raw diff body passes through unmodified). -/
def getDiffLogic (base : String) (env : Env) (projectKey repositorySlug : String)
    (prId : Int) : Except String String × List ApiCall :=
  let req := textReq (prUrl base projectKey repositorySlug prId ++ ".diff")
  (getOrThrow (bitbucketGet env.diff req), [ApiCall.prDiff req])

/-- Embedding of the registration wrapper of registerApiTool: the logic
result is formatted, and any exception is caught and rendered as the
Unhandled error text in a fresh envelope. -/
def runTool (res : Except String ToolValue × List ApiCall) :
    ToolOutput × List ApiCall :=
  match res with
  | (.ok v, t) => (format v, t)
  | (.error e, t) => (format (.str ("Unhandled error: " ++ renderErr e)), t)

/-- The registered bitbucketlistprs tool of the registerApiTool variant. -/
def toolListPrs (base : String) (env : Env) (role : RoleArg) :
    ToolOutput × List ApiCall :=
  let p := listPrsLogic base env role
  runTool (p.1.map ToolValue.items, p.2)

/-- The registered bitbucketgetpr tool of the registerApiTool variant. -/
def toolGetPr (base : String) (env : Env) (projectKey repositorySlug : String)
    (prId : Int) : ToolOutput × List ApiCall :=
  let p := getPrLogic base env projectKey repositorySlug prId
  runTool (p.1.map ToolValue.info, p.2)

/-- The registered bitbucketgetdiff tool of the registerApiTool variant. -/
def toolGetDiff (base : String) (env : Env) (projectKey repositorySlug : String)
    (prId : Int) : ToolOutput × List ApiCall :=
  let p := getDiffLogic base env projectKey repositorySlug prId
  runTool (p.1.map ToolValue.str, p.2)

/-- The fixed base URL of the src/server.ts variant. -/
def BITBUCKET_BASE_URL : String := "https://git.namecheap.net"

/-- Embedding of formatToolResponse of the fixed-base variant for the
values its handlers actually pass (plain strings and the projection
array); like format it always yields a single-text-block envelope.  Its
error/data duck-typing branches are unreachable from the handlers, which
build their error strings before calling it. -/
def formatToolResponse (v : ToolValue) : ToolOutput :=
  match v with
  | .str s => { content := [ContentBlock.text s] }
  | .items ps => { content := [ContentBlock.text (stringifyItems ps)] }
  | .info i => { content := [ContentBlock.text (stringifyInfo i)] }

/-- The user binding of the fixed-base variant: values[0] is taken only
when the values field is present with positive length. -/
def v1UserFrom (userResp : UsersBody) : Option UserRec :=
  match userResp.values with
  | none => none
  | some vs => if vs.length > 0 then vs.head? else none

/-- Continuation of the fixed-base bitbucketlistprs handler after the
user variable is settled: the slug guard with its hardcoded informational
envelope, the two independently guarded inbox queries whose errors are
silently skipped, deduplication, and the projection.  A projection
TypeError escapes the handler (Except.error); there is no catching
wrapper in this variant. -/
def v1AfterUser (env : Env) (role : RoleArg) (user : Option UserRec)
    (t : List ApiCall) : Except String ToolOutput × List ApiCall :=
  if !truthyStr (user.bind UserRec.slug) then
    (.ok { content := [ContentBlock.text "Could not determine the current user."] }, t)
  else
    let s1 :=
      if role = RoleArg.author ∨ role = RoleArg.all then
        let req := jsonReq (inboxUrl BITBUCKET_BASE_URL "AUTHOR")
        ((match bitbucketGet env.inbox req with
          | .data b => b.values.getD []
          | .err _ _ => []), t ++ [ApiCall.inbox "AUTHOR" req])
      else ([], t)
    let s2 :=
      if role = RoleArg.reviewer ∨ role = RoleArg.all then
        let req := jsonReq (inboxUrl BITBUCKET_BASE_URL "REVIEWER")
        ((match bitbucketGet env.inbox req with
          | .data b => b.values.getD []
          | .err _ _ => []), s1.2 ++ [ApiCall.inbox "REVIEWER" req])
      else ([], s1.2)
    match (dedupeById (s1.1 ++ s2.1)).mapM projectPr with
    | .error m => (.error m, s2.2)
    | .ok out => (.ok (formatToolResponse (ToolValue.items out)), s2.2)

/-- Embedding of the bitbucketlistprs handler of the fixed-base variant:
whoami (errors surfaced as an Error fetching user text), the truthiness
guard on the username (a falsy username skips the user search entirely),
the user search (errors surfaced as an Error fetching user details text),
then v1AfterUser. -/
def v1ListPrs (env : Env) (role : RoleArg) :
    Except String ToolOutput × List ApiCall :=
  let whoReq := jsonReq (whoamiUrl BITBUCKET_BASE_URL)
  let t := [ApiCall.whoami whoReq]
  match bitbucketGet env.whoami whoReq with
  | .err _ m =>
    (.ok (formatToolResponse (.str ("Error fetching user: " ++ m))), t)
  | .data username =>
    if username = "" then v1AfterUser env role none t
    else
      let uReq := jsonReq (usersUrl BITBUCKET_BASE_URL username)
      let t := t ++ [ApiCall.userSearch uReq]
      match bitbucketGet env.users uReq with
      | .err _ m =>
        (.ok (formatToolResponse (.str ("Error fetching user details: " ++ m))), t)
      | .data userResp => v1AfterUser env role (v1UserFrom userResp) t

/-- Recognizer for an inbox call of a given role, used to state which
role queries a handler run did or did not issue. -/
def isInboxCall (roleName : String) : ApiCall → Bool
  | .inbox r _ => r == roleName
  | _ => false

/-- Build an upstream host from per-endpoint outcomes; the inbox oracle
keeps its request argument so that the two roles can answer differently. -/
def mkEnv (who : Transport String) (us : Transport UsersBody)
    (inb : Req → Transport PrsBody) (det : Transport PrDetail)
    (df : Transport String) : Env :=
  { whoami := fun _ => who
    users := fun _ => us
    inbox := inb
    detail := fun _ => det
    diff := fun _ => df }

/-- A user-search record with a truthy slug. -/
def userOk : UserRec := { name := some "u", slug := some "u", displayName := some "U" }

/-- A project key object for test pull requests. -/
def projC : PrProject := { key := some "K" }

/-- A repository object for test pull requests. -/
def repoC : PrRepo := { project := some projC, slug := some "s", full_name := none }

/-- A fromRef with its whole chain present. -/
def frC : PrFromRef := { repository := some repoC }

/-- A well-formed upstream pull request whose projection succeeds. -/
def prC : UpstreamPr :=
  { id := some 7, title := some "T", author := none, reviewers := none,
    state := some "OPEN", destination := none, fromRef := some frC }

/-- The id-42 pull request as returned by the AUTHOR inbox query. -/
def pr42A : UpstreamPr := { prC with id := some 42 }

/-- The id-42 pull request as returned by the REVIEWER inbox query. -/
def pr42R : UpstreamPr :=
  { prC with id := some 42, title := some "copy from reviewer query" }

/-- An upstream pull request with no fromRef (and no reviewers field). -/
def prNoFromRef : UpstreamPr :=
  { id := some 1, title := none, author := none, reviewers := none,
    state := none, destination := none, fromRef := none }

/-- A pull-request detail body with numeric date fields. -/
def prDetailC : PrDetail :=
  { id := some 7, title := some "T", description := none, author := none,
    reviewers := none, state := some "OPEN",
    createdDate := some 1700000000000, updatedDate := some 1700000000000 }

/-- A host on which the inbox returns a fromRef-less pull request, making
the shared projection throw. -/
def envProjThrow : Env :=
  mkEnv (.ok "u") (.ok ⟨some [userOk]⟩) (fun _ => .ok ⟨some [prNoFromRef]⟩)
    (.netErr "x") (.netErr "x")

/-- A host on which the AUTHOR inbox query fails with a 500 and the
REVIEWER query succeeds with one pull request. -/
def envAuthorFails : Env :=
  mkEnv (.ok "u") (.ok ⟨some [userOk]⟩)
    (fun r => if r.url = inboxUrl BITBUCKET_BASE_URL "AUTHOR"
              then .httpErr 500 "boom" else .ok ⟨some [pr42R]⟩)
    (.netErr "x") (.netErr "x")

/-- A host on which the AUTHOR inbox query succeeds with one pull request
and the REVIEWER query fails with a 500. -/
def envReviewerFails : Env :=
  mkEnv (.ok "u") (.ok ⟨some [userOk]⟩)
    (fun r => if r.url = inboxUrl BITBUCKET_BASE_URL "AUTHOR"
              then .ok ⟨some [pr42A]⟩ else .httpErr 500 "boom")
    (.netErr "x") (.netErr "x")

/-- A host on which every consulted endpoint succeeds. -/
def envBothOk : Env :=
  mkEnv (.ok "u") (.ok ⟨some [userOk]⟩) (fun _ => .ok ⟨some [prC]⟩)
    (.ok prDetailC) (.ok "--- a/f\n+++ b/f\n")

/-- A host whose user search returns an empty values array. -/
def envNoMatch : Env :=
  mkEnv (.ok "u") (.ok ⟨some []⟩) (fun _ => .netErr "x") (.netErr "x") (.netErr "x")

/-- A host whose identity lookup succeeds with the empty username. -/
def envEmptyUser : Env :=
  mkEnv (.ok "") (.netErr "x") (fun _ => .netErr "x") (.netErr "x") (.netErr "x")

/-- A host whose identity lookup fails with a 401 and the body denied. -/
def envWhoFails : Env :=
  mkEnv (.httpErr 401 "denied") (.netErr "x") (fun _ => .netErr "x")
    (.netErr "x") (.netErr "x")

/-- A host whose detail endpoint returns the concrete detail body. -/
def envDetail : Env :=
  mkEnv (.netErr "x") (.netErr "x") (fun _ => .netErr "x")
    (.ok prDetailC) (.ok "--- a/f\n+++ b/f\n")

/-! Helper lemmas. -/

/-- format always produces a single text block. -/
theorem format_single (v : ToolValue) :
    ∃ s, (format v).content = [ContentBlock.text s] := by
  cases v <;> exact ⟨_, rfl⟩

/-- The registration wrapper always produces a single text block. -/
theorem runTool_single (res : Except String ToolValue × List ApiCall) :
    ∃ s, (runTool res).1.content = [ContentBlock.text s] := by
  rcases res with ⟨r, t⟩
  cases r with
  | ok v => exact format_single v
  | error e => exact format_single (.str ("Unhandled error: " ++ renderErr e))

/-! Claims C2, C4, C10. -/

/-- C2: for every path, header set and format hint (a request) and every
upstream outcome, the HTTP client wrapper bitbucketGet returns the tagged
Result (it is a total function, so it never throws): on a 2xx outcome the
data variant with the parsed body; on a non-2xx outcome the error variant
with the upstream status and a message that is the upstream response body
when truthy, else the axios error description; on a transport failure
the error variant with no status and the transport error description. -/
theorem c2_http_wrapper {β : Type} (oracle : Req → Transport β) (r : Req) :
    (∀ b, oracle r = .ok b → bitbucketGet oracle r = .data b) ∧
    (∀ st body, oracle r = .httpErr st body → body ≠ "" →
      bitbucketGet oracle r = .err (some st) body) ∧
    (∀ st, oracle r = .httpErr st "" →
      bitbucketGet oracle r = .err (some st) (httpFallback st)) ∧
    (∀ m, oracle r = .netErr m → bitbucketGet oracle r = .err none m) := by
  refine ⟨?_, ?_, ?_, ?_⟩
  · intro b h; simp [bitbucketGet, h]
  · intro st body h hb; simp [bitbucketGet, h, hb]
  · intro st h; simp [bitbucketGet, h]
  · intro m h; simp [bitbucketGet, h]

/-- Witness for C2 at a concrete oracle: a 404 with an empty body maps to
the error variant carrying the status and the axios fallback message. -/
theorem c2_http_wrapper_witness :
    bitbucketGet (fun _ => (Transport.httpErr 404 "" : Transport String)) (jsonReq "/x") =
      BBResp.err (some 404) (httpFallback 404) :=
  (c2_http_wrapper (fun _ => (Transport.httpErr 404 "" : Transport String))
    (jsonReq "/x")).2.2.1 404 rfl

/-- C4 counterexample: a pull request with no fromRef (and with no
reviewers field) makes the shared projection throw a TypeError rather
than produce undefined/empty fields, contradicting the claim that a
missing fromRef is tolerated. -/
theorem c4_counterexample :
    projectPr prNoFromRef = Except.error (typeErrorRead "repository") := rfl

/-- C4 (amended): the projection reads the author, reviewers and
destination chains defensively, producing none for anything absent (in
particular a pull request with no reviewers field projects to an absent
reviewer list), but only when fromRef, fromRef.repository and
fromRef.repository.project are all present; a missing link of that chain
throws a TypeError instead. -/
theorem c4_projection_defensive (pr : UpstreamPr) (fr : PrFromRef)
    (repo : PrRepo) (proj : PrProject)
    (h1 : pr.fromRef = some fr) (h2 : fr.repository = some repo)
    (h3 : repo.project = some proj) :
    projectPr pr = Except.ok
      { id := pr.id
        title := pr.title
        author := (pr.author.bind Participant.user).bind BbUser.displayName
        reviewers := pr.reviewers.map
          (fun l => l.map (fun rv => rv.user.bind BbUser.displayName))
        state := pr.state
        repository := (pr.destination.bind PrDest.repository).bind PrRepo.full_name
        projectKey := proj.key
        repositorySlug := repo.slug } ∧
    (pr.reviewers = none → ∃ item, projectPr pr = Except.ok item ∧ item.reviewers = none) ∧
    (pr.author = none → ∃ item, projectPr pr = Except.ok item ∧ item.author = none) ∧
    (pr.destination = none → ∃ item, projectPr pr = Except.ok item ∧ item.repository = none) := by
  have hmain : projectPr pr = Except.ok
      { id := pr.id
        title := pr.title
        author := (pr.author.bind Participant.user).bind BbUser.displayName
        reviewers := pr.reviewers.map
          (fun l => l.map (fun rv => rv.user.bind BbUser.displayName))
        state := pr.state
        repository := (pr.destination.bind PrDest.repository).bind PrRepo.full_name
        projectKey := proj.key
        repositorySlug := repo.slug } := by
    simp [projectPr, h1, h2, h3]
  refine ⟨hmain, ?_, ?_, ?_⟩
  · intro h4; exact ⟨_, hmain, by simp [h4]⟩
  · intro h4; exact ⟨_, hmain, by simp [h4]⟩
  · intro h4; exact ⟨_, hmain, by simp [h4]⟩

/-- Witness for C4 at a concrete pull request with the fromRef chain
present and no reviewers field. -/
theorem c4_witness :
    projectPr prC = Except.ok
      { id := some 7, title := some "T", author := none, reviewers := none,
        state := some "OPEN", repository := none, projectKey := some "K",
        repositorySlug := some "s" } :=
  (c4_projection_defensive prC frC repoC projC rfl rfl rfl).1

/-- C10: in the fixed-base-URL variant, when the identity lookup succeeds
with the empty (falsy) username, the handler skips the user search
entirely and returns the informational envelope Could not determine the
current user., with the identity lookup as its only upstream call. -/
theorem c10_empty_username (env : Env) (role : RoleArg)
    (h : bitbucketGet env.whoami (jsonReq (whoamiUrl BITBUCKET_BASE_URL)) = .data "") :
    v1ListPrs env role =
      (Except.ok { content := [ContentBlock.text "Could not determine the current user."] },
       [ApiCall.whoami (jsonReq (whoamiUrl BITBUCKET_BASE_URL))]) := by
  simp [v1ListPrs, h, v1AfterUser, truthyStr]

/-- Witness for C10 at a concrete host whose identity lookup returns the
empty string. -/
theorem c10_witness :
    v1ListPrs envEmptyUser RoleArg.all =
      (Except.ok { content := [ContentBlock.text "Could not determine the current user."] },
       [ApiCall.whoami (jsonReq (whoamiUrl BITBUCKET_BASE_URL))]) :=
  c10_empty_username envEmptyUser RoleArg.all rfl

/-! Claims C1 and C7. -/

/-- C1 counterexample: in the fixed-base-URL variant a TypeError thrown
during the projection escapes the bitbucketlistprs handler (the first
component is the escaping exception, not a content envelope), and no
Unhandled error rendering is produced, contradicting the claim that every
tool invocation is caught by a registration wrapper. -/
theorem c1_counterexample :
    (v1ListPrs envProjThrow RoleArg.all).1 =
      Except.error (typeErrorRead "repository") := rfl

/-- C1 (amended): in the registerApiTool variant the registration wrapper
always returns a single-text-block envelope for every input (all three
tools), and any exception escaping the logic is rendered as the text
Unhandled error: followed by the message; the fixed-base-URL variant has
no such wrapper and a projection TypeError escapes its handler (see the
counterexample). -/
theorem c1_wrapper_envelope (base : String) (env : Env) (role : RoleArg)
    (pk rs : String) (prId : Int)
    (res : Except String ToolValue × List ApiCall) :
    (∃ s, (runTool res).1.content = [ContentBlock.text s]) ∧
    (∀ e, res.1 = .error e →
      (runTool res).1.content =
        [ContentBlock.text ("Unhandled error: " ++ renderErr e)]) ∧
    (∃ s, (toolListPrs base env role).1.content = [ContentBlock.text s]) ∧
    (∃ s, (toolGetPr base env pk rs prId).1.content = [ContentBlock.text s]) ∧
    (∃ s, (toolGetDiff base env pk rs prId).1.content = [ContentBlock.text s]) := by
  refine ⟨runTool_single res, ?_, ?_, ?_, ?_⟩
  · intro e he
    rcases res with ⟨r, t⟩
    cases r with
    | ok v => simp at he
    | error e2 =>
      have : e2 = e := by simpa using he
      subst this
      rfl
  · exact runTool_single ((listPrsLogic base env role).1.map ToolValue.items,
      (listPrsLogic base env role).2)
  · exact runTool_single ((getPrLogic base env pk rs prId).1.map ToolValue.info,
      (getPrLogic base env pk rs prId).2)
  · exact runTool_single ((getDiffLogic base env pk rs prId).1.map ToolValue.str,
      (getDiffLogic base env pk rs prId).2)

/-- Witness for C1: a logic that throws boom is rendered as the Unhandled
error text. -/
theorem c1_witness :
    (runTool (Except.error "boom", ([] : List ApiCall))).1.content =
      [ContentBlock.text ("Unhandled error: " ++ renderErr "boom")] :=
  (c1_wrapper_envelope "" envBothOk RoleArg.all "" "" 0
    (Except.error "boom", ([] : List ApiCall))).2.1 "boom" rfl

/-- C7 counterexample: in the registerApiTool variant a user search with
no match makes the handler throw, and the caller receives exactly an
Unhandled error rendering, contradicting the claim that this case is
surfaced as a plain informational message that is not an Unhandled error
rendering. -/
theorem c7_counterexample :
    toolListPrs BITBUCKET_BASE_URL envNoMatch RoleArg.all =
      ({ content := [ContentBlock.text
          "Unhandled error: Failed to resolve current user slug"] },
       [ApiCall.whoami (jsonReq (whoamiUrl BITBUCKET_BASE_URL)),
        ApiCall.userSearch (jsonReq (usersUrl BITBUCKET_BASE_URL "u"))]) := rfl

/-- C7 (amended): when the user search yields no match or the first match
lacks a truthy slug, the fixed-base-URL variant returns the plain
informational envelope Could not determine the current user. (no
exception, no Unhandled error rendering), whereas the registerApiTool
variant throws internally and its wrapper renders the text Unhandled
error: Failed to resolve current user slug — still a string result, but
an Unhandled error rendering. -/
theorem c7_no_match (env : Env) (role : RoleArg) (u : String) (ub : UsersBody)
    (hu : u ≠ "")
    (hw : bitbucketGet env.whoami (jsonReq (whoamiUrl BITBUCKET_BASE_URL)) = .data u)
    (hs : bitbucketGet env.users (jsonReq (usersUrl BITBUCKET_BASE_URL u)) = .data ub)
    (hslug : truthyStr ((v1UserFrom ub).bind UserRec.slug) = false) :
    v1ListPrs env role =
      (Except.ok { content := [ContentBlock.text "Could not determine the current user."] },
       [ApiCall.whoami (jsonReq (whoamiUrl BITBUCKET_BASE_URL)),
        ApiCall.userSearch (jsonReq (usersUrl BITBUCKET_BASE_URL u))]) ∧
    (∀ (base : String) (env2 : Env) (ub2 : UsersBody) (vs : List UserRec),
      bitbucketGet env2.whoami (jsonReq (whoamiUrl base)) = .data u →
      bitbucketGet env2.users (jsonReq (usersUrl base u)) = .data ub2 →
      ub2.values = some vs →
      truthyStr (vs.head?.bind UserRec.slug) = false →
      toolListPrs base env2 role =
        (format (.str "Unhandled error: Failed to resolve current user slug"),
         [ApiCall.whoami (jsonReq (whoamiUrl base)),
          ApiCall.userSearch (jsonReq (usersUrl base u))])) := by
  constructor
  · simp [v1ListPrs, hw, hu, hs, v1AfterUser, hslug]
  · intro base env2 ub2 vs hw2 hs2 hv hsl
    have hre : renderErr "Failed to resolve current user slug" =
        "Failed to resolve current user slug" := rfl
    simp [toolListPrs, listPrsLogic, hw2, hs2, hv, hsl, getOrThrow, runTool, hre,
      Except.map]

/-- Witness for C7 at a concrete host whose user search returns an empty
values array. -/
theorem c7_witness :
    v1ListPrs envNoMatch RoleArg.all =
      (Except.ok { content := [ContentBlock.text "Could not determine the current user."] },
       [ApiCall.whoami (jsonReq (whoamiUrl BITBUCKET_BASE_URL)),
        ApiCall.userSearch (jsonReq (usersUrl BITBUCKET_BASE_URL "u"))]) :=
  (c7_no_match envNoMatch RoleArg.all "u" ⟨some []⟩ (by decide) rfl rfl rfl).1

/-! Claim C3. -/

/-- C3 counterexample: in the fixed-base-URL variant a failing AUTHOR
inbox query does not short-circuit the operation: the REVIEWER query is
still issued after the failing call, and a partial pull-request list (the
REVIEWER results alone) is returned instead of an error message. -/
theorem c3_counterexample :
    (v1ListPrs envAuthorFails RoleArg.all).2 =
      [ApiCall.whoami (jsonReq (whoamiUrl BITBUCKET_BASE_URL)),
       ApiCall.userSearch (jsonReq (usersUrl BITBUCKET_BASE_URL "u")),
       ApiCall.inbox "AUTHOR" (jsonReq (inboxUrl BITBUCKET_BASE_URL "AUTHOR")),
       ApiCall.inbox "REVIEWER" (jsonReq (inboxUrl BITBUCKET_BASE_URL "REVIEWER"))] ∧
    (v1ListPrs envAuthorFails RoleArg.all).1 =
      Except.ok (formatToolResponse (ToolValue.items
        [{ id := some 42, title := some "copy from reviewer query",
           author := none, reviewers := none, state := some "OPEN",
           repository := none, projectKey := some "K",
           repositorySlug := some "s" }])) :=
  ⟨rfl, rfl⟩

/-- C3 (amended): in the registerApiTool variant an upstream error in any
of steps 1-3 short-circuits the whole operation: the rendered result is
the Unhandled error text carrying the upstream message, the trace stops
at the failing call (no subsequent queries), and no pull-request list is
produced — including a failing REVIEWER query with role reviewer, and a
failing REVIEWER query after a successful AUTHOR query with role all,
where the already accumulated AUTHOR items are discarded.  In the
fixed-base-URL variant this holds for steps 1 and 2 (with the Error
fetching user / Error fetching user details prefixes), but a per-role
inbox error is silently skipped rather than short-circuiting (see the
counterexample). -/
theorem c3_short_circuit (base : String) (env : Env) (role : RoleArg) :
    (∀ st m, m ≠ "" →
      bitbucketGet env.whoami (jsonReq (whoamiUrl base)) = .err st m →
      toolListPrs base env role =
        (format (.str ("Unhandled error: " ++ m)),
         [ApiCall.whoami (jsonReq (whoamiUrl base))])) ∧
    (∀ u st m, m ≠ "" →
      bitbucketGet env.whoami (jsonReq (whoamiUrl base)) = .data u →
      bitbucketGet env.users (jsonReq (usersUrl base u)) = .err st m →
      toolListPrs base env role =
        (format (.str ("Unhandled error: " ++ m)),
         [ApiCall.whoami (jsonReq (whoamiUrl base)),
          ApiCall.userSearch (jsonReq (usersUrl base u))])) ∧
    (∀ u ub vs st m, m ≠ "" →
      bitbucketGet env.whoami (jsonReq (whoamiUrl base)) = .data u →
      bitbucketGet env.users (jsonReq (usersUrl base u)) = .data ub →
      ub.values = some vs →
      truthyStr (vs.head?.bind UserRec.slug) = true →
      bitbucketGet env.inbox (jsonReq (inboxUrl base "AUTHOR")) = .err st m →
      (role = RoleArg.author ∨ role = RoleArg.all) →
      toolListPrs base env role =
        (format (.str ("Unhandled error: " ++ m)),
         [ApiCall.whoami (jsonReq (whoamiUrl base)),
          ApiCall.userSearch (jsonReq (usersUrl base u)),
          ApiCall.inbox "AUTHOR" (jsonReq (inboxUrl base "AUTHOR"))])) ∧
    (∀ u ub vs st m, m ≠ "" →
      bitbucketGet env.whoami (jsonReq (whoamiUrl base)) = .data u →
      bitbucketGet env.users (jsonReq (usersUrl base u)) = .data ub →
      ub.values = some vs →
      truthyStr (vs.head?.bind UserRec.slug) = true →
      bitbucketGet env.inbox (jsonReq (inboxUrl base "REVIEWER")) = .err st m →
      toolListPrs base env RoleArg.reviewer =
        (format (.str ("Unhandled error: " ++ m)),
         [ApiCall.whoami (jsonReq (whoamiUrl base)),
          ApiCall.userSearch (jsonReq (usersUrl base u)),
          ApiCall.inbox "REVIEWER" (jsonReq (inboxUrl base "REVIEWER"))])) ∧
    (∀ u ub vs bA vsA st m, m ≠ "" →
      bitbucketGet env.whoami (jsonReq (whoamiUrl base)) = .data u →
      bitbucketGet env.users (jsonReq (usersUrl base u)) = .data ub →
      ub.values = some vs →
      truthyStr (vs.head?.bind UserRec.slug) = true →
      bitbucketGet env.inbox (jsonReq (inboxUrl base "AUTHOR")) = .data bA →
      bA.values = some vsA →
      bitbucketGet env.inbox (jsonReq (inboxUrl base "REVIEWER")) = .err st m →
      toolListPrs base env RoleArg.all =
        (format (.str ("Unhandled error: " ++ m)),
         [ApiCall.whoami (jsonReq (whoamiUrl base)),
          ApiCall.userSearch (jsonReq (usersUrl base u)),
          ApiCall.inbox "AUTHOR" (jsonReq (inboxUrl base "AUTHOR")),
          ApiCall.inbox "REVIEWER" (jsonReq (inboxUrl base "REVIEWER"))])) ∧
    (∀ st m, bitbucketGet env.whoami (jsonReq (whoamiUrl BITBUCKET_BASE_URL)) = .err st m →
      v1ListPrs env role =
        (Except.ok (formatToolResponse (.str ("Error fetching user: " ++ m))),
         [ApiCall.whoami (jsonReq (whoamiUrl BITBUCKET_BASE_URL))])) ∧
    (∀ u st m, u ≠ "" →
      bitbucketGet env.whoami (jsonReq (whoamiUrl BITBUCKET_BASE_URL)) = .data u →
      bitbucketGet env.users (jsonReq (usersUrl BITBUCKET_BASE_URL u)) = .err st m →
      v1ListPrs env role =
        (Except.ok (formatToolResponse (.str ("Error fetching user details: " ++ m))),
         [ApiCall.whoami (jsonReq (whoamiUrl BITBUCKET_BASE_URL)),
          ApiCall.userSearch (jsonReq (usersUrl BITBUCKET_BASE_URL u))])) := by
  refine ⟨?_, ?_, ?_, ?_, ?_, ?_, ?_⟩
  · intro st m hm h
    simp [toolListPrs, listPrsLogic, h, getOrThrow, runTool, renderErr, hm, Except.map]
  · intro u st m hm h1 h2
    simp [toolListPrs, listPrsLogic, h1, h2, getOrThrow, runTool, renderErr, hm,
      Except.map]
  · intro u ub vs st m hm h1 h2 hv hsl h3 hrole
    rcases hrole with rfl | rfl <;>
      simp [toolListPrs, listPrsLogic, h1, h2, hv, hsl, h3, getOrThrow, runTool,
        renderErr, hm, Except.map, fetchRoles, roleStrings]
  · intro u ub vs st m hm h1 h2 hv hsl h3
    simp [toolListPrs, listPrsLogic, h1, h2, hv, hsl, h3, getOrThrow, runTool,
      renderErr, hm, Except.map, fetchRoles, roleStrings]
  · intro u ub vs bA vsA st m hm h1 h2 hv hsl hA hAv hR
    simp [toolListPrs, listPrsLogic, h1, h2, hv, hsl, hA, hAv, hR, getOrThrow,
      runTool, renderErr, hm, Except.map, fetchRoles, roleStrings]
  · intro st m h
    simp [v1ListPrs, h]
  · intro u st m hu h1 h2
    simp [v1ListPrs, h1, hu, h2]

/-- Witness for C3 at concrete hosts: an identity lookup failing with a
401 stops the whole operation after the identity call, and with role all
a REVIEWER failure after a successful AUTHOR query discards the
accumulated AUTHOR items and surfaces the upstream message. -/
theorem c3_witness :
    toolListPrs "" envWhoFails RoleArg.all =
      (format (.str ("Unhandled error: " ++ "denied")),
       [ApiCall.whoami (jsonReq (whoamiUrl ""))]) ∧
    toolListPrs BITBUCKET_BASE_URL envReviewerFails RoleArg.all =
      (format (.str ("Unhandled error: " ++ "boom")),
       [ApiCall.whoami (jsonReq (whoamiUrl BITBUCKET_BASE_URL)),
        ApiCall.userSearch (jsonReq (usersUrl BITBUCKET_BASE_URL "u")),
        ApiCall.inbox "AUTHOR" (jsonReq (inboxUrl BITBUCKET_BASE_URL "AUTHOR")),
        ApiCall.inbox "REVIEWER" (jsonReq (inboxUrl BITBUCKET_BASE_URL "REVIEWER"))]) :=
  ⟨(c3_short_circuit "" envWhoFails RoleArg.all).1 (some 401) "denied" (by decide) rfl,
   (c3_short_circuit BITBUCKET_BASE_URL envReviewerFails RoleArg.all).2.2.2.2.1
     "u" ⟨some [userOk]⟩ [userOk] ⟨some [pr42A]⟩ [pr42A] (some 500) "boom"
     (by decide) rfl rfl rfl rfl rfl rfl rfl⟩

/-! Claim C6. -/

/-- The inbox loop only records inbox calls for the roles it was given:
filtering its trace for a role outside the given list sees only the
initial trace. -/
theorem fetchRoles_filter (base : String) (env : Env) (rn : String) :
    ∀ (rs : List String) (acc : List UpstreamPr) (t : List ApiCall),
      rn ∉ rs →
      (fetchRoles base env rs acc t).2.filter (isInboxCall rn) =
        t.filter (isInboxCall rn) := by
  intro rs
  induction rs with
  | nil => intro acc t _; simp [fetchRoles]
  | cons r rest ih =>
    intro acc t h
    have hr : r ≠ rn := fun he => h (by simp [he])
    have hcall : isInboxCall rn (ApiCall.inbox r (jsonReq (inboxUrl base r))) = false := by
      simp [isInboxCall]
      exact fun he => hr he
    have hrest : rn ∉ rest := fun he => h (by simp [he])
    unfold fetchRoles
    cases hg : getOrThrow (bitbucketGet env.inbox (jsonReq (inboxUrl base r))) with
    | error m => simp [hg, List.filter_append, hcall]
    | ok b =>
      cases hb : b.values with
      | none => simp [hg, hb, List.filter_append, hcall]
      | some vs =>
        simp only [hg, hb]
        rw [ih (acc ++ vs) (t ++ [ApiCall.inbox r (jsonReq (inboxUrl base r))]) hrest]
        simp [List.filter_append, hcall]

/-- The inbox loop only appends to the trace it was given. -/
theorem fetchRoles_trace_mono (base : String) (env : Env) :
    ∀ (rs : List String) (acc : List UpstreamPr) (t : List ApiCall),
      ∃ rest, (fetchRoles base env rs acc t).2 = t ++ rest := by
  intro rs
  induction rs with
  | nil => intro acc t; exact ⟨[], by simp [fetchRoles]⟩
  | cons r rest ih =>
    intro acc t
    unfold fetchRoles
    cases hg : getOrThrow (bitbucketGet env.inbox (jsonReq (inboxUrl base r))) with
    | error m => exact ⟨[ApiCall.inbox r (jsonReq (inboxUrl base r))], by simp [hg]⟩
    | ok b =>
      cases hb : b.values with
      | none => exact ⟨[ApiCall.inbox r (jsonReq (inboxUrl base r))], by simp [hg, hb]⟩
      | some vs =>
        obtain ⟨tail, htail⟩ := ih (acc ++ vs)
          (t ++ [ApiCall.inbox r (jsonReq (inboxUrl base r))])
        refine ⟨ApiCall.inbox r (jsonReq (inboxUrl base r)) :: tail, ?_⟩
        simp only [hg, hb]
        rw [htail]
        simp

/-- The trace of the list-my-pull-requests logic of the registerApiTool
variant never contains an inbox call of a role outside the effective role
set. -/
theorem listPrsLogic_filter_inbox (base : String) (env : Env) (role : RoleArg)
    (rn : String) (h : rn ∉ roleStrings role) :
    (listPrsLogic base env role).2.filter (isInboxCall rn) = [] := by
  unfold listPrsLogic
  cases h1 : getOrThrow (bitbucketGet env.whoami (jsonReq (whoamiUrl base))) with
  | error m => simp [h1, isInboxCall]
  | ok u =>
    cases h2 : getOrThrow (bitbucketGet env.users (jsonReq (usersUrl base u))) with
    | error m => simp [h1, h2, isInboxCall]
    | ok ub =>
      cases h3 : ub.values with
      | none => simp [h1, h2, h3, isInboxCall]
      | some vs =>
        cases h4 : truthyStr (vs.head?.bind UserRec.slug) with
        | false => simp [h1, h2, h3, h4, isInboxCall]
        | true =>
          simp only [h1, h2, h3, h4, Bool.not_true, Bool.false_eq_true, if_false,
            List.cons_append, List.nil_append]
          have hf := fetchRoles_filter base env rn (roleStrings role) []
            [ApiCall.whoami (jsonReq (whoamiUrl base)),
             ApiCall.userSearch (jsonReq (usersUrl base u))] h
          rcases hfe : fetchRoles base env (roleStrings role) []
            [ApiCall.whoami (jsonReq (whoamiUrl base)),
             ApiCall.userSearch (jsonReq (usersUrl base u))] with ⟨fr, ftr⟩
          rw [hfe] at hf
          have hf2 : List.filter (isInboxCall rn) ftr = [] := by
            simpa [isInboxCall] using hf
          cases fr with
          | error m => simpa using hf2
          | ok allPrs =>
            cases hm : List.mapM.loop projectPr (dedupeById allPrs) [] with
            | error m => simpa [hm] using hf2
            | ok out => simpa [hm] using hf2

/-- The trace of the fixed-base-URL handler continuation is the incoming
trace, possibly extended with the two independently guarded inbox
calls. -/
theorem v1AfterUser_trace (env : Env) (role : RoleArg) (user : Option UserRec)
    (t : List ApiCall) :
    (v1AfterUser env role user t).2 = t ∨
    (v1AfterUser env role user t).2 = t ++
      ((if role = RoleArg.author ∨ role = RoleArg.all then
          [ApiCall.inbox "AUTHOR" (jsonReq (inboxUrl BITBUCKET_BASE_URL "AUTHOR"))]
        else []) ++
       (if role = RoleArg.reviewer ∨ role = RoleArg.all then
          [ApiCall.inbox "REVIEWER" (jsonReq (inboxUrl BITBUCKET_BASE_URL "REVIEWER"))]
        else [])) := by
  unfold v1AfterUser
  cases h5 : truthyStr (user.bind UserRec.slug) with
  | false => left; simp [h5]
  | true =>
    right
    simp only [h5, Bool.not_true, Bool.false_eq_true, if_false]
    by_cases ha : role = RoleArg.author ∨ role = RoleArg.all <;>
      by_cases hr : role = RoleArg.reviewer ∨ role = RoleArg.all <;>
        simp only [ha, hr, if_true, if_false, iff_true, eq_self_iff_true] <;>
          (split <;> simp [ha, hr])

/-- The trace of the fixed-base-URL list handler never contains an inbox
call of a role outside the effective role set. -/
theorem v1ListPrs_filter_inbox (env : Env) (role : RoleArg) (rn : String)
    (h : rn ∉ roleStrings role) :
    (v1ListPrs env role).2.filter (isInboxCall rn) = [] := by
  have hA : (role = RoleArg.author ∨ role = RoleArg.all) → rn ≠ "AUTHOR" := by
    rintro (rfl | rfl) he <;> subst he <;> simp [roleStrings] at h
  have hR : (role = RoleArg.reviewer ∨ role = RoleArg.all) → rn ≠ "REVIEWER" := by
    rintro (rfl | rfl) he <;> subst he <;> simp [roleStrings] at h
  have hmain : ∀ (user : Option UserRec) (t : List ApiCall),
      t.filter (isInboxCall rn) = [] →
      (v1AfterUser env role user t).2.filter (isInboxCall rn) = [] := by
    intro user t ht
    rcases v1AfterUser_trace env role user t with he | he <;> rw [he]
    · exact ht
    · rw [List.filter_append, ht]
      simp only [List.nil_append, List.filter_append]
      have e1 : (if role = RoleArg.author ∨ role = RoleArg.all then
          [ApiCall.inbox "AUTHOR" (jsonReq (inboxUrl BITBUCKET_BASE_URL "AUTHOR"))]
        else []).filter (isInboxCall rn) = [] := by
        by_cases ha : role = RoleArg.author ∨ role = RoleArg.all
        · have : ("AUTHOR" == rn) = false := by
            rcases hbe : ("AUTHOR" == rn) with _ | _
            · rfl
            · exact absurd (eq_of_beq hbe).symm (hA ha)
          simp [ha, isInboxCall, this]
        · simp [ha]
      have e2 : (if role = RoleArg.reviewer ∨ role = RoleArg.all then
          [ApiCall.inbox "REVIEWER" (jsonReq (inboxUrl BITBUCKET_BASE_URL "REVIEWER"))]
        else []).filter (isInboxCall rn) = [] := by
        by_cases hr : role = RoleArg.reviewer ∨ role = RoleArg.all
        · have : ("REVIEWER" == rn) = false := by
            rcases hbe : ("REVIEWER" == rn) with _ | _
            · rfl
            · exact absurd (eq_of_beq hbe).symm (hR hr)
          simp [hr, isInboxCall, this]
        · simp [hr]
      rw [e1, e2]
      rfl
  unfold v1ListPrs
  cases h1 : bitbucketGet env.whoami (jsonReq (whoamiUrl BITBUCKET_BASE_URL)) with
  | err st m => simp [h1, isInboxCall]
  | data u =>
    simp only [h1]
    by_cases hu : u = ""
    · rw [if_pos hu]
      exact hmain none _ (by simp [isInboxCall])
    · rw [if_neg hu]
      cases h2 : bitbucketGet env.users (jsonReq (usersUrl BITBUCKET_BASE_URL u)) with
      | err st m => simp [h2, isInboxCall]
      | data ub =>
        simp only [h2]
        exact hmain (v1UserFrom ub) _ (by simp [isInboxCall])

/-- C6: list-my-pull-requests with role author issues no REVIEWER inbox
query and with role reviewer no AUTHOR inbox query, in both variants; and
(for the registerApiTool variant) a run whose trace contains both an
AUTHOR and a REVIEWER inbox call can only have had role all. -/
theorem c6_role_filtering (base : String) (env : Env) :
    (listPrsLogic base env RoleArg.author).2.filter (isInboxCall "REVIEWER") = [] ∧
    (listPrsLogic base env RoleArg.reviewer).2.filter (isInboxCall "AUTHOR") = [] ∧
    (v1ListPrs env RoleArg.author).2.filter (isInboxCall "REVIEWER") = [] ∧
    (v1ListPrs env RoleArg.reviewer).2.filter (isInboxCall "AUTHOR") = [] ∧
    (∀ role, (listPrsLogic base env role).2.filter (isInboxCall "AUTHOR") ≠ [] →
             (listPrsLogic base env role).2.filter (isInboxCall "REVIEWER") ≠ [] →
             role = RoleArg.all) := by
  have h1 := listPrsLogic_filter_inbox base env RoleArg.author "REVIEWER" (by decide)
  have h2 := listPrsLogic_filter_inbox base env RoleArg.reviewer "AUTHOR" (by decide)
  refine ⟨h1, h2,
    v1ListPrs_filter_inbox env RoleArg.author "REVIEWER" (by decide),
    v1ListPrs_filter_inbox env RoleArg.reviewer "AUTHOR" (by decide), ?_⟩
  intro role hA hR
  cases role with
  | author => exact absurd h1 hR
  | reviewer => exact absurd h2 hA
  | all => rfl

/-- Witness for C6 at a concrete host on which every endpoint succeeds:
the author run issues no REVIEWER query, and a run that issued both roles
is identified as the all role. -/
theorem c6_witness :
    (listPrsLogic "" envBothOk RoleArg.author).2.filter (isInboxCall "REVIEWER") = [] ∧
    RoleArg.all = RoleArg.all :=
  ⟨(c6_role_filtering "" envBothOk).1,
   (c6_role_filtering "" envBothOk).2.2.2.2 RoleArg.all (by decide) (by decide)⟩

/-! Claims C8 and C9. -/

/-- C8: when the pull-request detail body carries createdDate
1700000000000, get-pull-request-info succeeds (for any valid updatedDate)
with created_on equal to the ISO-8601 rendering of that timestamp, namely
2023-11-14T22:13:20.000Z, and updated_on equal to the rendering of the
updatedDate. -/
theorem c8_dates (base : String) (env : Env) (pk rs : String) (prId : Int)
    (d : PrDetail) (up : Int)
    (hd : bitbucketGet env.detail (jsonReq (prUrl base pk rs prId)) = .data d)
    (hc : d.createdDate = some 1700000000000)
    (hu : d.updatedDate = some up)
    (hur : up.natAbs ≤ 8640000000000000) :
    ∃ info, (getPrLogic base env pk rs prId).1 = .ok info ∧
      info.created_on = renderIso 1700000000000 ∧
      info.created_on = "2023-11-14T22:13:20.000Z" ∧
      info.updated_on = renderIso up := by
  have hg : getOrThrow (bitbucketGet env.detail (jsonReq (prUrl base pk rs prId))) =
      Except.ok d := by rw [hd]; rfl
  have hciso : toIsoString d.createdDate = .ok "2023-11-14T22:13:20.000Z" := by
    rw [hc]; rfl
  have huiso : toIsoString d.updatedDate = .ok (renderIso up) := by
    rw [hu]
    simp [toIsoString, Nat.not_lt.mpr hur]
  refine ⟨{ id := d.id, title := d.title, description := d.description,
            author := (d.author.bind Participant.user).bind BbUser.displayName,
            reviewers := d.reviewers.map
              (fun l => l.map (fun rv => rv.user.bind BbUser.displayName)),
            state := d.state,
            created_on := "2023-11-14T22:13:20.000Z",
            updated_on := renderIso up }, ?_, by rfl, rfl, rfl⟩
  unfold getPrLogic
  simp [hg, hciso, huiso]

/-- Witness for C8 at a concrete host whose detail endpoint returns both
dates as 1700000000000. -/
theorem c8_witness :
    ∃ info, (getPrLogic "" envDetail "" "" 0).1 = .ok info ∧
      info.created_on = renderIso 1700000000000 ∧
      info.created_on = "2023-11-14T22:13:20.000Z" ∧
      info.updated_on = renderIso 1700000000000 :=
  c8_dates "" envDetail "" "" 0 prDetailC 1700000000000 rfl rfl rfl (by decide)

/-- C9: the outbound URLs are the verbatim concatenation of the base URL
and the path template with the inputs interpolated unencoded (detail and
diff requests for every input, and the user-search URL built from the
resolved username), and consequently inputs containing URL metacharacters
collide: the detail URL of project P/repos/S with slug T equals the
detail URL of project P with slug S/repos/T. -/
theorem c9_url_concat (base : String) (env : Env) (pk rs : String) (prId : Int)
    (u : String) :
    (getPrLogic base env pk rs prId).2 =
      [ApiCall.prDetail ⟨base ++ "/rest/api/latest/projects/" ++ pk ++ "/repos/" ++ rs ++
        "/pull-requests/" ++ toString prId, false, false⟩] ∧
    (getDiffLogic base env pk rs prId).2 =
      [ApiCall.prDiff ⟨base ++ "/rest/api/latest/projects/" ++ pk ++ "/repos/" ++ rs ++
        "/pull-requests/" ++ toString prId ++ ".diff", true, true⟩] ∧
    (bitbucketGet env.whoami (jsonReq (whoamiUrl base)) = .data u →
      (listPrsLogic base env RoleArg.all).2.take 2 =
        [ApiCall.whoami (jsonReq (whoamiUrl base)),
         ApiCall.userSearch ⟨base ++ "/rest/api/latest/users?filter=" ++ u,
           false, false⟩]) ∧
    prUrl "https://host" "P/repos/S" "T" 1 = prUrl "https://host" "P" "S/repos/T" 1 := by
  refine ⟨?_, rfl, ?_, by rfl⟩
  · unfold getPrLogic
    dsimp only
    split
    · rfl
    · split
      · rfl
      · split <;> rfl
  · intro hwho
    have hg : getOrThrow (bitbucketGet env.whoami (jsonReq (whoamiUrl base))) =
        Except.ok u := by rw [hwho]; rfl
    unfold listPrsLogic
    cases h2 : getOrThrow (bitbucketGet env.users (jsonReq (usersUrl base u))) with
    | error m => simp only [hg, h2]; rfl
    | ok ub =>
      cases h3 : ub.values with
      | none => simp only [hg, h2, h3]; rfl
      | some vs =>
        cases h4 : truthyStr (vs.head?.bind UserRec.slug) with
        | false => simp only [hg, h2, h3, h4]; rfl
        | true =>
          simp only [hg, h2, h3, h4, Bool.not_true, Bool.false_eq_true, if_false,
            List.cons_append, List.nil_append]
          obtain ⟨rest, hrest⟩ := fetchRoles_trace_mono base env
            (roleStrings RoleArg.all) []
            [ApiCall.whoami (jsonReq (whoamiUrl base)),
             ApiCall.userSearch (jsonReq (usersUrl base u))]
          rcases hfe : fetchRoles base env (roleStrings RoleArg.all) []
            [ApiCall.whoami (jsonReq (whoamiUrl base)),
             ApiCall.userSearch (jsonReq (usersUrl base u))] with ⟨fr, ftr⟩
          rw [hfe] at hrest
          have hft : ftr = [ApiCall.whoami (jsonReq (whoamiUrl base)),
              ApiCall.userSearch (jsonReq (usersUrl base u))] ++ rest := by
            simpa using hrest
          cases fr with
          | error m => simp only [hft]; rfl
          | ok allPrs =>
            cases hm : (dedupeById allPrs).mapM projectPr with
            | error m => simp only [hm, hft]; rfl
            | ok out => simp only [hm, hft]; rfl

/-- Witness for C9 at a concrete host: the resolved username u is
interpolated verbatim into the user-search URL. -/
theorem c9_witness :
    (listPrsLogic "" envBothOk RoleArg.all).2.take 2 =
      [ApiCall.whoami (jsonReq (whoamiUrl "")),
       ApiCall.userSearch ⟨"" ++ "/rest/api/latest/users?filter=" ++ "u",
         false, false⟩] :=
  (c9_url_concat "" envBothOk "" "" 0 "u").2.2.1 rfl

/-! Claim C5. -/

/-- When find? locates an element in the first list, the JavaScript
findIndex over the concatenation (started at any index) locates the same
element, at an offset inside the first list. -/
theorem jsFindIndex_found {α : Type} (p : α → Bool) :
    ∀ (A : List α) (a : α), A.find? p = some a →
      ∀ (R : List α) (k : Nat),
      ∃ j, jsFindIndex p k (A ++ R) = some j ∧ k ≤ j ∧
        (A ++ R).get? (j - k) = some a ∧ p a = true := by
  intro A
  induction A with
  | nil => intro a h; simp at h
  | cons x xs ih =>
    intro a h R k
    by_cases hpx : p x = true
    · have hax : x = a := by
        rw [List.find?_cons_of_pos _ hpx] at h
        exact Option.some.inj h
      subst hax
      refine ⟨k, ?_, Nat.le_refl k, ?_, hpx⟩
      · simp [jsFindIndex, hpx]
      · simp
    · have hx2 : xs.find? p = some a := by
        rwa [List.find?_cons_of_neg _ (by simpa using hpx)] at h
      obtain ⟨j, hj, hkj, hget, hpa⟩ := ih a hx2 R (k + 1)
      refine ⟨j, ?_, by omega, ?_, hpa⟩
      · simp [jsFindIndex, hpx, hj]
      · have hd : j - k = (j - (k + 1)) + 1 := by omega
        rw [List.cons_append, hd, List.get?_cons_succ]
        exact hget

/-- The index-aware filter keeping exactly the elements whose F-index is
their own position, further filtered to the elements of interest (all of
which share the one F-index j), retains exactly the element sitting at
position j, when there is one. -/
theorem filterIdx_filter_first {α : Type} (F : α → Option Nat) (g : α → Bool)
    (j : Nat) (hg : ∀ x, g x = true → F x = some j) :
    ∀ (l : List α) (k : Nat),
      (filterIdx (fun i x => F x == some i) k l).filter g =
        if k ≤ j then ((l.get? (j - k)).toList.filter g) else [] := by
  intro l
  induction l with
  | nil =>
    intro k
    simp only [filterIdx, List.filter_nil, List.get?_nil]
    split <;> rfl
  | cons x xs ih =>
    intro k
    rcases hgx : g x with _ | _
    · have lhs_eq : (filterIdx (fun i x => F x == some i) k (x :: xs)).filter g =
          (filterIdx (fun i x => F x == some i) (k + 1) xs).filter g := by
        rcases hFb : (F x == some k) with _ | _
        · simp [filterIdx, hFb]
        · simp [filterIdx, hFb, List.filter_cons, hgx]
      rw [lhs_eq, ih (k + 1)]
      rcases Nat.lt_trichotomy k j with hlt | heq | hgt
      · rw [if_pos (by omega), if_pos (by omega)]
        have hd : j - k = (j - (k + 1)) + 1 := by omega
        rw [hd, List.get?_cons_succ]
      · subst heq
        rw [if_neg (by omega), if_pos (Nat.le_refl k)]
        simp [Nat.sub_self, hgx]
      · rw [if_neg (by omega), if_neg (by omega)]
    · have hFx := hg x hgx
      by_cases hjk : j = k
      · subst hjk
        have hb : (F x == some j) = true := by simp [hFx]
        have lhs_eq : filterIdx (fun i x => F x == some i) j (x :: xs) =
            x :: filterIdx (fun i x => F x == some i) (j + 1) xs := by
          simp [filterIdx, hb]
        rw [lhs_eq, List.filter_cons_of_pos hgx]
        rw [ih (j + 1), if_neg (by omega), if_pos (Nat.le_refl j)]
        simp [Nat.sub_self, hgx]
      · have hb : (F x == some k) = false := by
          rw [hFx]
          exact beq_eq_false_iff_ne.mpr (fun he => hjk (Option.some.inj he))
        have lhs_eq : (filterIdx (fun i x => F x == some i) k (x :: xs)).filter g =
            (filterIdx (fun i x => F x == some i) (k + 1) xs).filter g := by
          simp [filterIdx, hb]
        rw [lhs_eq, ih (k + 1)]
        rcases Nat.lt_trichotomy k j with hlt | heq | hgt
        · rw [if_pos (by omega), if_pos (by omega)]
          have hd : j - k = (j - (k + 1)) + 1 := by omega
          rw [hd, List.get?_cons_succ]
        · exact absurd heq.symm hjk
        · rw [if_neg (by omega), if_neg (by omega)]

/-- The index-aware filter returns a sublist of its input: order is
preserved and nothing is invented. -/
theorem filterIdx_sublist {α : Type} (f : Nat → α → Bool) :
    ∀ (l : List α) (k : Nat), List.Sublist (filterIdx f k l) l := by
  intro l
  induction l with
  | nil => intro k; simp [filterIdx]
  | cons x xs ih =>
    intro k
    rcases hfx : f k x with _ | _
    · simpa [filterIdx, hfx] using List.Sublist.cons x (ih (k + 1))
    · simpa [filterIdx, hfx] using List.Sublist.cons₂ x (ih (k + 1))

/-- C5: for every pair of AUTHOR and REVIEWER inbox result lists sharing
an id, the deduplication applied to their concatenation keeps exactly one
entry with that id, namely the first-seen (AUTHOR-list) copy; the
deduplicated output is a sublist of the concatenation (first-seen order
preserved), and the effective role set of role all queries AUTHOR then
REVIEWER. -/
theorem c5_dedupe_first (A R : List UpstreamPr) (n : Int) (a : UpstreamPr)
    (h : A.find? (fun p => p.id == some n) = some a) :
    (dedupeById (A ++ R)).filter (fun p => p.id == some n) = [a] ∧
    List.Sublist (dedupeById (A ++ R)) (A ++ R) ∧
    roleStrings RoleArg.all = ["AUTHOR", "REVIEWER"] := by
  obtain ⟨j, hj, -, hget, hpa⟩ :=
    jsFindIndex_found (fun p => p.id == some n) A a h R 0
  have hcoh : ∀ x : UpstreamPr, (fun p : UpstreamPr => p.id == some n) x = true →
      (fun pr : UpstreamPr =>
        jsFindIndex (fun p => p.id == pr.id) 0 (A ++ R)) x = some j := by
    intro x hx
    have hxid : x.id = some n := by simpa using hx
    simp only
    rw [hxid]
    exact hj
  have key := filterIdx_filter_first
    (fun pr : UpstreamPr => jsFindIndex (fun p => p.id == pr.id) 0 (A ++ R))
    (fun p : UpstreamPr => p.id == some n) j hcoh (A ++ R) 0
  have hget2 : (A ++ R).get? j = some a := by simpa using hget
  rw [if_pos (Nat.zero_le j), Nat.sub_zero, hget2] at key
  have htl : (Option.some a).toList.filter
      (fun p : UpstreamPr => p.id == some n) = [a] := by
    simp [hpa]
  rw [htl] at key
  exact ⟨key, filterIdx_sublist _ (A ++ R) 0, rfl⟩

/-- Witness for C5 at concrete overlapping result lists sharing id 42:
the output keeps exactly the AUTHOR-query copy. -/
theorem c5_witness :
    (dedupeById ([pr42A, prC] ++ [pr42R])).filter
      (fun p => p.id == some 42) = [pr42A] :=
  (c5_dedupe_first [pr42A, prC] [pr42R] 42 pr42A rfl).1

end BitbucketMcp






